import Mathlib

/-!
Shallow embedding of the missile-defense game core from `src/src/App.tsx`,
with the entity shapes from the accompanying `types.ts`.

Modeling conventions:
* JavaScript `number` is modeled as `ℝ` for coordinates, speeds, radii,
  alpha, ammo and score; `destroyedCount` is `ℕ` (it only counts up from 0),
  and `level` is `ℤ` (it is `1` or `Math.floor(score / 500) + 1`).
* The pseudo-random draws (`Math.random()`) and the randomly generated id
  strings are explicit parameters of the operations that use them.
* The body of `update`'s `setGameState` callback (App.tsx lines 223-318) is
  modeled as a pure function.  The source mutates `cities`, `batteries` and
  `explosions` in place; the model threads those collections explicitly.
  In the level-up branch the source returns `{ ...prev, level, batteries,
  rockets: [], interceptors: [], score }`: because `explosions.push` and the
  lifecycle pass mutate the `prev.explosions` array and its elements in
  place, the spread's `explosions` field is the lifecycle-updated but
  UNFILTERED list, and its `destroyedCount` field is the unmodified
  `prev.destroyedCount`.  The model reproduces this aliasing exactly.
* The probabilistic rocket spawn (App.tsx lines 218-221) acts through its
  own `setGameState` call, so it is modeled as the separate `spawnRocket`
  operation; `update` models the pure per-tick state transformer.
-/

namespace NovaDefense

noncomputable section
open scoped Classical

/-- Point from `types.ts`. -/
@[ext] structure Point where
  x : ℝ
  y : ℝ

/-- Rocket from `types.ts` (Entity fields inlined). -/
structure Rocket where
  id : String
  pos : Point
  target : Point
  speed : ℝ
  angle : ℝ

/-- Interceptor from `types.ts`. -/
structure Interceptor where
  id : String
  pos : Point
  target : Point
  origin : Point
  speed : ℝ
  batteryIndex : ℕ

/-- Explosion from `types.ts`. -/
structure Explosion where
  id : String
  pos : Point
  radius : ℝ
  maxRadius : ℝ
  growing : Bool
  alpha : ℝ

/-- City from `types.ts`. -/
structure City where
  id : String
  pos : Point
  destroyed : Bool

/-- Battery from `types.ts`. -/
structure Battery where
  id : String
  pos : Point
  ammo : ℝ
  maxAmmo : ℝ
  destroyed : Bool

/-- GameStatus from `types.ts`; the source type admits five values. -/
inductive GameStatus where
  | START
  | PLAYING
  | WON
  | LOST
  | LEVEL_COMPLETE
deriving DecidableEq

/-- GameState from `types.ts`. -/
structure GameState where
  score : ℝ
  level : ℤ
  status : GameStatus
  rockets : List Rocket
  interceptors : List Interceptor
  explosions : List Explosion
  cities : List City
  batteries : List Battery
  destroyedCount : ℕ

-- Constants (App.tsx lines 21-28).
def TARGET_SCORE : ℝ := 3000
def EXPLOSION_MAX_RADIUS : ℝ := 40
def EXPLOSION_SPEED : ℝ := 1.5
def ROCKET_SPEED_BASE : ℝ := 0.8
def INTERCEPTOR_SPEED : ℝ := 6

/-- Euclidean length of the vector from `a` to `b`:
`dx = b.x - a.x; dy = b.y - a.y; Math.sqrt(dx*dx + dy*dy)` as computed at
App.tsx lines 228-230, 250-252 and 288-290. -/
def dist (a b : Point) : ℝ :=
  Real.sqrt ((b.x - a.x) * (b.x - a.x) + (b.y - a.y) * (b.y - a.y))

/-- `cities.find(c => c.pos.x === t.x && c.pos.y === t.y)` followed by
`cityHit.destroyed = true` (App.tsx lines 234-235): mark the FIRST city
whose position equals `t` as destroyed. -/
def markFirstCity (t : Point) : List City → List City
  | [] => []
  | c :: cs =>
    if c.pos.x = t.x ∧ c.pos.y = t.y then { c with destroyed := true } :: cs
    else c :: markFirstCity t cs

/-- Same for batteries (App.tsx lines 237-238). -/
def markFirstBattery (t : Point) : List Battery → List Battery
  | [] => []
  | b :: bs =>
    if b.pos.x = t.x ∧ b.pos.y = t.y then { b with destroyed := true } :: bs
    else b :: markFirstBattery t bs

/-- One rocket of the movement/impact pass (App.tsx lines 227-246):
arrival test `dist < r.speed`; on arrival mark matching city and battery
destroyed and drop the rocket (`return null`), otherwise advance by
`(dx / dist) * r.speed` per axis. -/
def stepRocket (cs : List City) (bs : List Battery) (r : Rocket) :
    Option Rocket × List City × List Battery :=
  if dist r.pos r.target < r.speed then
    (none, markFirstCity r.target cs, markFirstBattery r.target bs)
  else
    (some { r with pos :=
        ⟨r.pos.x + (r.target.x - r.pos.x) / dist r.pos r.target * r.speed,
         r.pos.y + (r.target.y - r.pos.y) / dist r.pos r.target * r.speed⟩ },
     cs, bs)

/-- The rocket pass `rockets.map(...).filter(Boolean)` with the in-place
city/battery mutations threaded left to right in list order. -/
def stepRockets : List Rocket → List City → List Battery →
    List Rocket × List City × List Battery
  | [], cs, bs => ([], cs, bs)
  | r :: rs, cs, bs =>
    match stepRocket cs bs r with
    | (none, cs1, bs1) => stepRockets rs cs1 bs1
    | (some r1, cs1, bs1) =>
      let rest := stepRockets rs cs1 bs1
      (r1 :: rest.1, rest.2.1, rest.2.2)

/-- The explosion pushed on interceptor arrival (App.tsx lines 256-264):
`currentPower = 0.5 + Math.floor(destroyedCount / 5) * 0.5`, radius 2,
`maxRadius = EXPLOSION_MAX_RADIUS * currentPower`, growing, alpha 1. -/
def mkExplosion (eid : String) (t : Point) (dc : ℕ) : Explosion :=
  { id := eid, pos := t, radius := 2,
    maxRadius := EXPLOSION_MAX_RADIUS * (0.5 + (↑(dc / 5) : ℝ) * 0.5),
    growing := true, alpha := 1 }

/-- Interceptor pass (App.tsx lines 249-271): arrival test `dist < i.speed`;
on arrival push a new explosion (id drawn from the `ids` stream, indexed by
the number of explosions pushed so far) and drop the interceptor, otherwise
advance toward the target.  `dc` is the tick's starting `destroyedCount`. -/
def stepInterceptors (ids : ℕ → String) (dc : ℕ) :
    ℕ → List Interceptor → List Interceptor × List Explosion
  | _, [] => ([], [])
  | k, i :: is =>
    if dist i.pos i.target < i.speed then
      let rest := stepInterceptors ids dc (k + 1) is
      (rest.1, mkExplosion (ids k) i.target dc :: rest.2)
    else
      let rest := stepInterceptors ids dc k is
      ({ i with pos :=
          ⟨i.pos.x + (i.target.x - i.pos.x) / dist i.pos i.target * i.speed,
           i.pos.y + (i.target.y - i.pos.y) / dist i.pos i.target * i.speed⟩ } :: rest.1,
       rest.2)

/-- Explosion lifecycle mutation (App.tsx lines 275-281): while growing add
`EXPLOSION_SPEED` and stop growing once `radius >= maxRadius`; while
shrinking subtract `EXPLOSION_SPEED * 0.5` and fade alpha by 0.02. -/
def stepExplosion (e : Explosion) : Explosion :=
  if e.growing then
    { e with radius := e.radius + EXPLOSION_SPEED,
             growing := if e.radius + EXPLOSION_SPEED ≥ e.maxRadius then false
                        else e.growing }
  else
    { e with radius := e.radius - EXPLOSION_SPEED * 0.5, alpha := e.alpha - 0.02 }

/-- `return e.radius > 0 && e.alpha > 0 ? e : null` + `filter(Boolean)`
(App.tsx lines 282-283). -/
def pruneExplosions : List Explosion → List Explosion
  | [] => []
  | e :: es =>
    if 0 < e.radius ∧ 0 < e.alpha then e :: pruneExplosions es
    else pruneExplosions es

/-- `explosions.some(e => dist(r.pos, e.pos) < e.radius)`
(App.tsx lines 287-292). -/
def hitTest (es : List Explosion) (r : Rocket) : Prop :=
  ∃ e ∈ es, dist e.pos r.pos < e.radius

/-- Collision pass (App.tsx lines 286-300): each hit rocket is removed and
adds 50 to the score and 1 to `destroyedCount`. -/
def collide (es : List Explosion) : List Rocket → ℝ → ℕ → List Rocket × ℝ × ℕ
  | [], sc, dc => ([], sc, dc)
  | r :: rs, sc, dc =>
    if hitTest es r then collide es rs (sc + 50) (dc + 1)
    else
      let rest := collide es rs sc dc
      (r :: rest.1, rest.2.1, rest.2.2)

/-- Number of rockets the collision pass destroys (the number of iterations
of App.tsx lines 294-298 that take the `hit` branch). -/
def hitCount (es : List Explosion) : List Rocket → ℕ
  | [] => 0
  | r :: rs => (if hitTest es r then 1 else 0) + hitCount es rs

-- Named tick phases.  `update` below is assembled from these; each is a
-- direct reading of the corresponding stage of App.tsx lines 223-318.

/-- Stage 2 (rockets) applied to the previous state. -/
def rocketsPhase (s : GameState) : List Rocket × List City × List Battery :=
  stepRockets s.rockets s.cities s.batteries

/-- Post-impact cities of the tick. -/
def tickCities (s : GameState) : List City := (rocketsPhase s).2.1

/-- Post-impact batteries of the tick. -/
def tickBatteries (s : GameState) : List Battery := (rocketsPhase s).2.2

/-- Stage 3 (interceptors) applied to the previous state; uses the tick's
starting `destroyedCount` for explosion power. -/
def interceptorsPhase (ids : ℕ → String) (s : GameState) :
    List Interceptor × List Explosion :=
  stepInterceptors ids s.destroyedCount 0 s.interceptors

/-- Surviving interceptors of the tick. -/
def tickInterceptors (ids : ℕ → String) (s : GameState) : List Interceptor :=
  (interceptorsPhase ids s).1

/-- The `prev.explosions` array after stage 3's in-place pushes and stage 4's
in-place lifecycle mutation, BEFORE the dead ones are filtered out.  This is
the array the level-up branch's `{ ...prev, ... }` spread exposes. -/
def explosionsMutatedPhase (ids : ℕ → String) (s : GameState) : List Explosion :=
  (s.explosions ++ (interceptorsPhase ids s).2).map stepExplosion

/-- Stage 4's result after filtering (the rebound local `explosions`). -/
def liveExplosions (ids : ℕ → String) (s : GameState) : List Explosion :=
  pruneExplosions (explosionsMutatedPhase ids s)

/-- Stage 5 (collision detection) on the moved rockets against the filtered
explosions, threading score and `destroyedCount`. -/
def collidePhase (ids : ℕ → String) (s : GameState) : List Rocket × ℝ × ℕ :=
  collide (liveExplosions ids s) (rocketsPhase s).1 s.score s.destroyedCount

/-- Rockets surviving the whole tick. -/
def tickRockets (ids : ℕ → String) (s : GameState) : List Rocket :=
  (collidePhase ids s).1

/-- The score at the end of stage 5 (the local `score` at line 302). -/
def tickScore (ids : ℕ → String) (s : GameState) : ℝ :=
  (collidePhase ids s).2.1

/-- `destroyedCount` at the end of stage 5. -/
def tickDestroyedCount (ids : ℕ → String) (s : GameState) : ℕ :=
  (collidePhase ids s).2.2

/-- The per-tick state transformer: the body of `update`'s `setGameState`
callback (App.tsx lines 214-319), guarded by `status !== 'PLAYING'`.
Branch order follows lines 302-317: win check, then loss check, then
level-up, then the plain rebuild.  In the level-up branch the spread
`{ ...prev, ... }` exposes the in-place-mutated `explosions` array
(pushed and lifecycle-updated but NOT filtered), the unmodified
`prev.destroyedCount`, the unmodified `prev.status`, and the in-place
mutated `cities`. -/
def update (ids : ℕ → String) (s : GameState) : GameState :=
  if s.status ≠ GameStatus.PLAYING then s
  else if tickScore ids s ≥ TARGET_SCORE then
    { s with rockets := tickRockets ids s, interceptors := tickInterceptors ids s,
             explosions := liveExplosions ids s, cities := tickCities s,
             batteries := tickBatteries s, score := tickScore ids s,
             status := GameStatus.WON, destroyedCount := tickDestroyedCount ids s }
  else if (tickBatteries s).all (fun b => b.destroyed) then
    { s with rockets := tickRockets ids s, interceptors := tickInterceptors ids s,
             explosions := liveExplosions ids s, cities := tickCities s,
             batteries := tickBatteries s, score := tickScore ids s,
             status := GameStatus.LOST, destroyedCount := tickDestroyedCount ids s }
  else if ⌊tickScore ids s / 500⌋ + 1 > s.level then
    { s with level := ⌊tickScore ids s / 500⌋ + 1,
             batteries := (tickBatteries s).map (fun b => { b with ammo := b.maxAmmo }),
             rockets := [], interceptors := [],
             score := tickScore ids s,
             explosions := explosionsMutatedPhase ids s,
             cities := tickCities s }
  else
    { s with rockets := tickRockets ids s, interceptors := tickInterceptors ids s,
             explosions := liveExplosions ids s, cities := tickCities s,
             batteries := tickBatteries s, score := tickScore ids s,
             destroyedCount := tickDestroyedCount ids s }

/-- The battery-selection loop of `handleCanvasClick` (App.tsx lines
177-189): scan batteries left to right, skipping destroyed ones, keeping
the index of the strictly smallest `|b.pos.x - x|` seen so far.  `minDist`
starts at `Infinity`, so the first live battery always wins against an
empty accumulator; that sentinel is modeled by the `none` accumulator. -/
def nearestBattery (x : ℝ) : List Battery → ℕ → Option (ℕ × ℝ) → Option (ℕ × ℝ)
  | [], _, best => best
  | b :: bs, idx, best =>
    if b.destroyed then nearestBattery x bs (idx + 1) best
    else
      match best with
      | none => nearestBattery x bs (idx + 1) (some (idx, |b.pos.x - x|))
      | some (bi, m) =>
        if |b.pos.x - x| < m then nearestBattery x bs (idx + 1) (some (idx, |b.pos.x - x|))
        else nearestBattery x bs (idx + 1) (some (bi, m))

/-- The core of `handleCanvasClick` (App.tsx lines 154-212) after the
caller-side pixel-to-canvas coordinate transform: no-op unless PLAYING,
pick the nearest live battery, and append one interceptor fired from it at
the tap point with speed `INTERCEPTOR_SPEED`.  Nothing else changes (in
particular no ammo is deducted).  The source indexes
`s.batteries[nearestBatteryIdx]` directly; the index returned by the loop is
always in range, so the `none` fallback of `get?` is never taken. -/
def handleCanvasClick (newId : String) (x y : ℝ) (s : GameState) : GameState :=
  if s.status ≠ GameStatus.PLAYING then s
  else
    match nearestBattery x s.batteries 0 none with
    | none => s
    | some (idx, _) =>
      match s.batteries.get? idx with
      | none => s
      | some b =>
        { s with interceptors := s.interceptors ++
            [{ id := newId, pos := b.pos, target := ⟨x, y⟩, origin := b.pos,
               speed := INTERCEPTOR_SPEED, batteryIndex := idx }] }

/-- `spawnRocket` (App.tsx lines 122-152).  The random draws are explicit:
`choice` selects the target among the live cities' then live batteries'
positions (the caller's `Math.floor(Math.random() * length)` lies in
`[0, length)`, modeled by reducing `choice` mod the length), `startX` is the
random spawn abscissa, `newId` the random id. -/
def spawnRocket (choice : ℕ) (startX : ℝ) (newId : String) (s : GameState) :
    GameState :=
  if s.status ≠ GameStatus.PLAYING then s
  else
    let availableTargets :=
      (s.cities.filter fun c => !c.destroyed).map City.pos ++
      (s.batteries.filter fun b => !b.destroyed).map Battery.pos
    if h : availableTargets.length = 0 then s
    else
      let target := availableTargets.get
        ⟨choice % availableTargets.length, Nat.mod_lt _ (Nat.pos_of_ne_zero h)⟩
      { s with rockets := s.rockets ++
          [{ id := newId, pos := ⟨startX, 0⟩, target := target,
             speed := ROCKET_SPEED_BASE + (s.level : ℝ) * 0.2,
             angle := Complex.arg ⟨target.x - startX, target.y⟩ }] }

/-- The `useState` initializer (App.tsx lines 32-53): the pre-game state. -/
def initialState : GameState :=
  { score := 0, level := 1, status := GameStatus.START,
    rockets := [], interceptors := [], explosions := [],
    cities :=
      [ { id := "c1", pos := ⟨150, 550⟩, destroyed := false },
        { id := "c2", pos := ⟨250, 550⟩, destroyed := false },
        { id := "c3", pos := ⟨350, 550⟩, destroyed := false },
        { id := "c4", pos := ⟨450, 550⟩, destroyed := false },
        { id := "c5", pos := ⟨550, 550⟩, destroyed := false },
        { id := "c6", pos := ⟨650, 550⟩, destroyed := false } ],
    batteries :=
      [ { id := "b1", pos := ⟨50, 550⟩, ammo := 20, maxAmmo := 20, destroyed := false },
        { id := "b2", pos := ⟨400, 550⟩, ammo := 40, maxAmmo := 40, destroyed := false },
        { id := "b3", pos := ⟨750, 550⟩, ammo := 20, maxAmmo := 20, destroyed := false } ],
    destroyedCount := 0 }

/-- `initGame` (App.tsx lines 97-120): the state installed by the Start and
Play Again buttons — identical to `initialState` except `status = PLAYING`. -/
def initGame : GameState := { initialState with status := GameStatus.PLAYING }

/-- Both the Start and the Play Again buttons call `initGame`, which
replaces the whole state unconditionally; the prior state is ignored. -/
def restart (_ : GameState) : GameState := initGame

/-- States reachable from the initial state by any sequence of simulation
ticks, taps, rocket spawns and restarts. -/
inductive Reachable : GameState → Prop where
  | init : Reachable initialState
  | tick (ids : ℕ → String) {s : GameState} :
      Reachable s → Reachable (update ids s)
  | click (newId : String) (x y : ℝ) {s : GameState} :
      Reachable s → Reachable (handleCanvasClick newId x y s)
  | spawn (choice : ℕ) (startX : ℝ) (newId : String) {s : GameState} :
      Reachable s → Reachable (spawnRocket choice startX newId s)
  | restartGame {s : GameState} : Reachable s → Reachable (restart s)

-- Concrete inputs for witnesses and counterexamples.

/-- A fixed id stream standing in for the random id generator. -/
def ids0 : ℕ → String := fun _ => "x"

/-- A tick on which the win and loss conditions hold simultaneously:
score already at target, every battery destroyed. -/
def w1 : GameState :=
  { score := 3000, level := 6, status := GameStatus.PLAYING,
    rockets := [], interceptors := [], explosions := [], cities := [],
    batteries :=
      [ { id := "b1", pos := ⟨50, 550⟩, ammo := 20, maxAmmo := 20, destroyed := true } ],
    destroyedCount := 60 }

/-- A rocket far from its target (distance 200, speed 1): it survives the
movement pass, ending one unit lower. -/
def rLvl : Rocket :=
  { id := "r", pos := ⟨100, 200⟩, target := ⟨100, 0⟩, speed := 1, angle := 0 }

/-- A growing explosion sitting exactly where `rLvl` will be after moving. -/
def eLive : Explosion :=
  { id := "e1", pos := ⟨100, 199⟩, radius := 10, maxRadius := 40,
    growing := true, alpha := 1 }

/-- A shrinking explosion whose lifecycle update this tick drives its radius
below zero. -/
def eDying : Explosion :=
  { id := "e2", pos := ⟨0, 0⟩, radius := 0.5, maxRadius := 20,
    growing := false, alpha := 1 }

/-- `eLive` after one lifecycle update. -/
def eLiveStepped : Explosion :=
  { id := "e1", pos := ⟨100, 199⟩, radius := 11.5, maxRadius := 40,
    growing := true, alpha := 1 }

/-- `eDying` after one lifecycle update: dead (radius `-0.25`). -/
def eDyingStepped : Explosion :=
  { id := "e2", pos := ⟨0, 0⟩, radius := -0.25, maxRadius := 20,
    growing := false, alpha := 0.98 }

def cityLvl : City := { id := "c", pos := ⟨150, 550⟩, destroyed := false }

def batLvl : Battery :=
  { id := "b", pos := ⟨50, 550⟩, ammo := 20, maxAmmo := 20, destroyed := false }

/-- A state on which the tick scores one kill (450 → 500 points) and hence
levels up: the kill is `rLvl` caught by `eLive`, while `eDying` dies this
same tick. -/
def sLvl : GameState :=
  { score := 450, level := 1, status := GameStatus.PLAYING,
    rockets := [rLvl], interceptors := [], explosions := [eLive, eDying],
    cities := [cityLvl], batteries := [batLvl], destroyedCount := 9 }

/-- A quiet state with one live explosion: the tick neither scores nor
levels up. -/
def w6 : GameState :=
  { score := 0, level := 1, status := GameStatus.PLAYING,
    rockets := [], interceptors := [], explosions := [eLive],
    cities := [cityLvl], batteries := [batLvl], destroyedCount := 0 }

/-- An interceptor that has reached its target (distance 0 < speed 6). -/
def iArr : Interceptor :=
  { id := "i", pos := ⟨100, 300⟩, target := ⟨100, 300⟩, origin := ⟨50, 550⟩,
    speed := 6, batteryIndex := 0 }

/-- A state whose tick detonates `iArr` with 7 prior kills
(`floor(7/5) = 1`, so the explosion power multiplier is `1.0`). -/
def w4 : GameState :=
  { score := 350, level := 1, status := GameStatus.PLAYING,
    rockets := [], interceptors := [iArr], explosions := [],
    cities := [cityLvl], batteries := [batLvl], destroyedCount := 7 }

/-- City at the impact point of `r50`. -/
def c50 : City := { id := "c", pos := ⟨3, 4⟩, destroyed := false }

/-- Battery away from the impact point of `r50`. -/
def b50 : Battery :=
  { id := "b", pos := ⟨700, 550⟩, ammo := 20, maxAmmo := 20, destroyed := false }

/-- A rocket at distance 5 from its target, moving at speed 6: it arrives
this tick. -/
def r50 : Rocket :=
  { id := "r", pos := ⟨0, 0⟩, target := ⟨3, 4⟩, speed := 6, angle := 0 }

/-- A playing state in which every city and every battery is destroyed. -/
def w7 : GameState :=
  { score := 100, level := 1, status := GameStatus.PLAYING,
    rockets := [], interceptors := [], explosions := [],
    cities := [ { id := "c", pos := ⟨150, 550⟩, destroyed := true } ],
    batteries :=
      [ { id := "b", pos := ⟨50, 550⟩, ammo := 20, maxAmmo := 20, destroyed := true } ],
    destroyedCount := 2 }

-- Helper lemmas about the tick transformer.

lemma update_of_not_playing (ids : ℕ → String) (s : GameState)
    (h : s.status ≠ GameStatus.PLAYING) : update ids s = s := by
  unfold update
  rw [if_pos h]

lemma update_of_won (ids : ℕ → String) (s : GameState)
    (h1 : s.status = GameStatus.PLAYING) (h2 : tickScore ids s ≥ TARGET_SCORE) :
    update ids s =
      { s with rockets := tickRockets ids s, interceptors := tickInterceptors ids s,
               explosions := liveExplosions ids s, cities := tickCities s,
               batteries := tickBatteries s, score := tickScore ids s,
               status := GameStatus.WON, destroyedCount := tickDestroyedCount ids s } := by
  unfold update
  rw [if_neg (by simp [h1]), if_pos h2]

lemma update_of_lost (ids : ℕ → String) (s : GameState)
    (h1 : s.status = GameStatus.PLAYING) (h2 : ¬ tickScore ids s ≥ TARGET_SCORE)
    (h3 : (tickBatteries s).all (fun b => b.destroyed) = true) :
    update ids s =
      { s with rockets := tickRockets ids s, interceptors := tickInterceptors ids s,
               explosions := liveExplosions ids s, cities := tickCities s,
               batteries := tickBatteries s, score := tickScore ids s,
               status := GameStatus.LOST, destroyedCount := tickDestroyedCount ids s } := by
  unfold update
  rw [if_neg (by simp [h1]), if_neg h2, if_pos h3]

lemma update_of_levelup (ids : ℕ → String) (s : GameState)
    (h1 : s.status = GameStatus.PLAYING) (h2 : ¬ tickScore ids s ≥ TARGET_SCORE)
    (h3 : ¬ (tickBatteries s).all (fun b => b.destroyed) = true)
    (h4 : ⌊tickScore ids s / 500⌋ + 1 > s.level) :
    update ids s =
      { s with level := ⌊tickScore ids s / 500⌋ + 1,
               batteries := (tickBatteries s).map (fun b => { b with ammo := b.maxAmmo }),
               rockets := [], interceptors := [],
               score := tickScore ids s,
               explosions := explosionsMutatedPhase ids s,
               cities := tickCities s } := by
  unfold update
  rw [if_neg (by simp [h1]), if_neg h2, if_neg h3, if_pos h4]

lemma update_of_normal (ids : ℕ → String) (s : GameState)
    (h1 : s.status = GameStatus.PLAYING) (h2 : ¬ tickScore ids s ≥ TARGET_SCORE)
    (h3 : ¬ (tickBatteries s).all (fun b => b.destroyed) = true)
    (h4 : ¬ ⌊tickScore ids s / 500⌋ + 1 > s.level) :
    update ids s =
      { s with rockets := tickRockets ids s, interceptors := tickInterceptors ids s,
               explosions := liveExplosions ids s, cities := tickCities s,
               batteries := tickBatteries s, score := tickScore ids s,
               destroyedCount := tickDestroyedCount ids s } := by
  unfold update
  rw [if_neg (by simp [h1]), if_neg h2, if_neg h3, if_neg h4]

lemma update_score_of_playing (ids : ℕ → String) (s : GameState)
    (h1 : s.status = GameStatus.PLAYING) :
    (update ids s).score = tickScore ids s := by
  unfold update
  rw [if_neg (by simp [h1])]
  split
  · rfl
  split
  · rfl
  split
  · rfl
  · rfl

lemma update_status_cases (ids : ℕ → String) (s : GameState) :
    (update ids s).status = s.status ∨ (update ids s).status = GameStatus.WON ∨
      (update ids s).status = GameStatus.LOST := by
  unfold update
  split
  · exact Or.inl rfl
  split
  · exact Or.inr (Or.inl rfl)
  split
  · exact Or.inr (Or.inr rfl)
  split
  · exact Or.inl rfl
  · exact Or.inl rfl

lemma handleCanvasClick_status (newId : String) (x y : ℝ) (s : GameState) :
    (handleCanvasClick newId x y s).status = s.status := by
  unfold handleCanvasClick
  split
  · rfl
  split
  · rfl
  split
  · rfl
  · rfl

lemma spawnRocket_status (choice : ℕ) (startX : ℝ) (newId : String) (s : GameState) :
    (spawnRocket choice startX newId s).status = s.status := by
  unfold spawnRocket
  split
  · rfl
  · dsimp only
    split
    · rfl
    · rfl

lemma collide_score_dc (es : List Explosion) :
    ∀ (rs : List Rocket) (sc : ℝ) (dc : ℕ),
      (collide es rs sc dc).2.1 = sc + 50 * (hitCount es rs : ℝ) ∧
      (collide es rs sc dc).2.2 = dc + hitCount es rs := by
  intro rs
  induction rs with
  | nil => intro sc dc; simp [collide, hitCount]
  | cons r rs ih =>
    intro sc dc
    by_cases h : hitTest es r
    · have hrec := ih (sc + 50) (dc + 1)
      simp only [collide, hitCount, if_pos h, hrec.1, hrec.2]
      constructor
      · push_cast
        ring
      · omega
    · have hrec := ih sc dc
      simp only [collide, hitCount, if_neg h, hrec.1, hrec.2]
      constructor
      · push_cast
        ring
      · omega

lemma of_mem_pruneExplosions :
    ∀ {es : List Explosion} {e : Explosion},
      e ∈ pruneExplosions es → e ∈ es ∧ 0 < e.radius ∧ 0 < e.alpha := by
  intro es
  induction es with
  | nil => intro e h; simp [pruneExplosions] at h
  | cons a as ih =>
    intro e h
    simp only [pruneExplosions] at h
    split at h
    · rcases List.mem_cons.mp h with h1 | h2
      · subst h1
        exact ⟨List.mem_cons_self _ _, by assumption⟩
      · exact ⟨List.mem_cons_of_mem _ (ih h2).1, (ih h2).2⟩
    · exact ⟨List.mem_cons_of_mem _ (ih h).1, (ih h).2⟩

lemma nearestBattery_of_all_destroyed (x : ℝ) :
    ∀ (bs : List Battery) (i : ℕ) (acc : Option (ℕ × ℝ)),
      (∀ b ∈ bs, b.destroyed = true) → nearestBattery x bs i acc = acc := by
  intro bs
  induction bs with
  | nil => intro i acc _; rfl
  | cons b bs ih =>
    intro i acc hall
    have hb : b.destroyed = true := hall b (List.mem_cons_self _ _)
    simp only [nearestBattery, if_pos hb]
    exact ih _ _ fun b' hb' => hall b' (List.mem_cons_of_mem _ hb')

lemma mem_stepInterceptors_spawned (ids : ℕ → String) (dc : ℕ) :
    ∀ (is : List Interceptor) (k : ℕ) (e : Explosion),
      e ∈ (stepInterceptors ids dc k is).2 →
      ∃ n t, e = mkExplosion (ids n) t dc := by
  intro is
  induction is with
  | nil => intro k e h; simp [stepInterceptors] at h
  | cons i is ih =>
    intro k e h
    simp only [stepInterceptors] at h
    split at h
    · dsimp only at h
      rcases List.mem_cons.mp h with h1 | h2
      · exact ⟨k, i.target, h1⟩
      · exact ih (k + 1) e h2
    · dsimp only at h
      exact ih k e h

lemma interceptorsPhase_w4 :
    interceptorsPhase ids0 w4 = ([], [mkExplosion "x" ⟨100, 300⟩ 7]) := by
  have hd : dist iArr.pos iArr.target < iArr.speed := by
    show Real.sqrt ((100 - 100) * (100 - 100) + (300 - 300) * (300 - 300)) < 6
    norm_num [Real.sqrt_zero]
  simp only [interceptorsPhase, w4]
  simp only [stepInterceptors, if_pos hd]
  rfl

lemma dist_rLvl : dist (⟨100, 200⟩ : Point) ⟨100, 0⟩ = 200 := by
  show Real.sqrt ((100 - 100) * (100 - 100) + (0 - 200) * (0 - 200)) = 200
  rw [show ((100:ℝ) - 100) * (100 - 100) + (0 - 200) * (0 - 200) = 200 * 200 by norm_num]
  exact Real.sqrt_mul_self (by norm_num)

lemma rocketsPhase_sLvl :
    rocketsPhase sLvl =
      ([{ id := "r", pos := ⟨100, 199⟩, target := ⟨100, 0⟩, speed := 1, angle := 0 }],
       [cityLvl], [batLvl]) := by
  have hna : ¬ dist (⟨100, 200⟩ : Point) ⟨100, 0⟩ < (1 : ℝ) := by
    rw [dist_rLvl]
    norm_num
  simp only [rocketsPhase, sLvl, rLvl]
  simp only [stepRockets, stepRocket, if_neg hna]
  rw [dist_rLvl]
  norm_num

lemma stepExplosion_eLive : stepExplosion eLive = eLiveStepped := by
  have h1 : ¬ ((10 : ℝ) + 1.5 ≥ 40) := by norm_num
  simp only [stepExplosion, eLive, eLiveStepped, EXPLOSION_SPEED]
  norm_num

lemma stepExplosion_eDying : stepExplosion eDying = eDyingStepped := by
  simp only [stepExplosion, eDying, eDyingStepped, EXPLOSION_SPEED]
  norm_num

lemma explosionsMutated_sLvl :
    explosionsMutatedPhase ids0 sLvl = [eLiveStepped, eDyingStepped] := by
  have hip : (interceptorsPhase ids0 sLvl).2 = [] := rfl
  rw [explosionsMutatedPhase, hip]
  rw [show sLvl.explosions = [eLive, eDying] from rfl]
  simp only [List.append_nil, List.map_cons, List.map_nil]
  rw [stepExplosion_eLive, stepExplosion_eDying]

lemma liveExplosions_sLvl : liveExplosions ids0 sLvl = [eLiveStepped] := by
  have h1 : (0 : ℝ) < eLiveStepped.radius ∧ (0 : ℝ) < eLiveStepped.alpha := by
    constructor <;> norm_num [eLiveStepped]
  have h2 : ¬ ((0 : ℝ) < eDyingStepped.radius ∧ (0 : ℝ) < eDyingStepped.alpha) := by
    intro h
    have := h.1
    norm_num [eDyingStepped] at this
  rw [liveExplosions, explosionsMutated_sLvl]
  simp only [pruneExplosions, if_pos h1, if_neg h2]

lemma hitTest_rMoved :
    hitTest [eLiveStepped]
      { id := "r", pos := ⟨100, 199⟩, target := ⟨100, 0⟩, speed := 1, angle := 0 } := by
  refine ⟨eLiveStepped, List.mem_singleton.mpr rfl, ?_⟩
  show Real.sqrt ((100 - 100) * (100 - 100) + (199 - 199) * (199 - 199)) < (11.5 : ℝ)
  rw [show ((100:ℝ) - 100) * (100 - 100) + (199 - 199) * (199 - 199) = 0 by norm_num,
      Real.sqrt_zero]
  norm_num

lemma collidePhase_sLvl : collidePhase ids0 sLvl = ([], 500, 10) := by
  rw [collidePhase, liveExplosions_sLvl, rocketsPhase_sLvl]
  simp only [sLvl]
  simp only [collide, if_pos hitTest_rMoved]
  norm_num

lemma tickScore_sLvl : tickScore ids0 sLvl = 500 := by
  rw [tickScore, collidePhase_sLvl]

lemma update_sLvl :
    update ids0 sLvl =
      { sLvl with level := 2,
                  batteries := [{ batLvl with ammo := 20 }],
                  rockets := [], interceptors := [],
                  score := 500,
                  explosions := [eLiveStepped, eDyingStepped],
                  cities := [cityLvl] } := by
  have h2 : ¬ tickScore ids0 sLvl ≥ TARGET_SCORE := by
    rw [tickScore_sLvl, TARGET_SCORE]
    norm_num
  have h3 : ¬ (tickBatteries sLvl).all (fun b => b.destroyed) = true := by
    rw [tickBatteries, rocketsPhase_sLvl]
    simp [batLvl]
  have hfloor : ⌊tickScore ids0 sLvl / 500⌋ + 1 = 2 := by
    rw [tickScore_sLvl, show (500:ℝ) / 500 = 1 by norm_num, Int.floor_one]
    norm_num
  have h4 : ⌊tickScore ids0 sLvl / 500⌋ + 1 > sLvl.level := by
    rw [hfloor]
    show (2:ℤ) > 1
    norm_num
  rw [update_of_levelup ids0 sLvl rfl h2 h3 h4]
  rw [hfloor, tickScore_sLvl, tickBatteries, tickCities, rocketsPhase_sLvl,
      explosionsMutated_sLvl]
  simp [batLvl]

-- Claim theorems.

/-- Claim C1: on any tick taken from PLAYING whose resulting score is at
least the 3000-point target, the resulting status is WON; the win check at
App.tsx line 303 precedes the loss check at line 305, so the loss branch is
never taken when the win condition holds — even if every battery is
destroyed. -/
theorem c1_win_precedence (ids : ℕ → String) (s : GameState)
    (h1 : s.status = GameStatus.PLAYING)
    (h2 : (update ids s).score ≥ TARGET_SCORE) :
    (update ids s).status = GameStatus.WON := by
  have hs : tickScore ids s ≥ TARGET_SCORE := by
    rwa [update_score_of_playing ids s h1] at h2
  rw [update_of_won ids s h1 hs]

theorem c1_claim_witness :
    w1.status = GameStatus.PLAYING ∧
    (∀ b ∈ w1.batteries, b.destroyed = true) ∧
    (update ids0 w1).status = GameStatus.WON := by
  refine ⟨rfl, ?_, ?_⟩
  · intro b hb
    simp only [w1, List.mem_singleton] at hb
    subst hb
    rfl
  · exact c1_win_precedence ids0 w1 rfl (by
      rw [update_score_of_playing ids0 w1 rfl]
      show (3000 : ℝ) ≥ TARGET_SCORE
      rw [TARGET_SCORE])

/-- Claim C4: every explosion spawned by an interceptor arrival during a
tick is created with radius 2, growing, alpha 1, and
`maxRadius = 40 * (0.5 + floor(destroyedCount / 5) * 0.5)` computed from the
tick's starting `destroyedCount` (the collision pass that might change it
runs after the interceptor pass). -/
theorem c4_explosion_creation (ids : ℕ → String) (s : GameState) (e : Explosion)
    (h : e ∈ (interceptorsPhase ids s).2) :
    e.radius = 2 ∧ e.growing = true ∧ e.alpha = 1 ∧
    e.maxRadius = 40 * (0.5 + (↑(s.destroyedCount / 5) : ℝ) * 0.5) := by
  obtain ⟨n, t, rfl⟩ :=
    mem_stepInterceptors_spawned ids s.destroyedCount s.interceptors 0 e h
  refine ⟨rfl, rfl, rfl, ?_⟩
  simp [mkExplosion, EXPLOSION_MAX_RADIUS]

theorem c4_claim_witness :
    (mkExplosion "x" ⟨100, 300⟩ 7).radius = 2 ∧
    (mkExplosion "x" ⟨100, 300⟩ 7).growing = true ∧
    (mkExplosion "x" ⟨100, 300⟩ 7).alpha = 1 ∧
    (mkExplosion "x" ⟨100, 300⟩ 7).maxRadius =
      40 * (0.5 + (↑(w4.destroyedCount / 5) : ℝ) * 0.5) :=
  c4_explosion_creation ids0 w4 _
    (by rw [interceptorsPhase_w4]; exact List.mem_singleton.mpr rfl)

/-- Claim C7: each degenerate-input guard is a state-preserving no-op: a tap
while not PLAYING (App.tsx line 156), a tap while PLAYING with no live
battery (line 191), and a spawner call with no live city or battery
(line 132) all leave the state exactly unchanged. -/
theorem c7_degenerate_noops (newId : String) (x y : ℝ) (choice : ℕ) (startX : ℝ)
    (s : GameState) :
    (s.status ≠ GameStatus.PLAYING → handleCanvasClick newId x y s = s) ∧
    ((∀ b ∈ s.batteries, b.destroyed = true) → handleCanvasClick newId x y s = s) ∧
    ((∀ c ∈ s.cities, c.destroyed = true) → (∀ b ∈ s.batteries, b.destroyed = true) →
      spawnRocket choice startX newId s = s) := by
  refine ⟨?_, ?_, ?_⟩
  · intro h
    unfold handleCanvasClick
    rw [if_pos h]
  · intro hall
    by_cases hst : s.status ≠ GameStatus.PLAYING
    · unfold handleCanvasClick
      rw [if_pos hst]
    · unfold handleCanvasClick
      rw [if_neg hst, nearestBattery_of_all_destroyed x s.batteries 0 none hall]
  · intro hc hb
    by_cases hst : s.status ≠ GameStatus.PLAYING
    · unfold spawnRocket
      rw [if_pos hst]
    · have h1 : s.cities.filter (fun c => !c.destroyed) = [] :=
        List.filter_eq_nil_iff.mpr (by intro c hcmem; simp [hc c hcmem])
      have h2 : s.batteries.filter (fun b => !b.destroyed) = [] :=
        List.filter_eq_nil_iff.mpr (by intro b hbmem; simp [hb b hbmem])
      unfold spawnRocket
      rw [if_neg hst]
      dsimp only
      rw [dif_pos (by simp [h1, h2])]

theorem c7_claim_witness :
    handleCanvasClick "i" 60 100 initialState = initialState ∧
    handleCanvasClick "i" 60 100 w7 = w7 ∧
    spawnRocket 0 300 "r" w7 = w7 := by
  refine ⟨(c7_degenerate_noops "i" 60 100 0 300 initialState).1 (by simp [initialState]),
          (c7_degenerate_noops "i" 60 100 0 300 w7).2.1 ?_,
          (c7_degenerate_noops "r" 60 100 0 300 w7).2.2 ?_ ?_⟩
  · intro b hb
    simp only [w7, List.mem_singleton] at hb
    subst hb
    rfl
  · intro c hcmem
    simp only [w7, List.mem_singleton] at hcmem
    subst hcmem
    rfl
  · intro b hb
    simp only [w7, List.mem_singleton] at hb
    subst hb
    rfl

/-- Claim C9: the restart/start operation (`initGame`, App.tsx lines
97-120) ignores the prior state entirely and always installs the same
canonical layout: score 0, level 1, `destroyedCount` 0, empty entity
collections, the six fixed cities undestroyed, and the three fixed
batteries with full ammo. -/
theorem c9_restart_canonical (s : GameState) :
    restart s = initGame ∧
    initGame.status = GameStatus.PLAYING ∧
    initGame.score = 0 ∧ initGame.level = 1 ∧ initGame.destroyedCount = 0 ∧
    initGame.rockets = [] ∧ initGame.interceptors = [] ∧ initGame.explosions = [] ∧
    initGame.cities.map City.pos =
      [⟨150, 550⟩, ⟨250, 550⟩, ⟨350, 550⟩, ⟨450, 550⟩, ⟨550, 550⟩, ⟨650, 550⟩] ∧
    (∀ c ∈ initGame.cities, c.destroyed = false) ∧
    initGame.batteries.map Battery.pos = [⟨50, 550⟩, ⟨400, 550⟩, ⟨750, 550⟩] ∧
    (∀ b ∈ initGame.batteries, b.ammo = b.maxAmmo ∧ b.destroyed = false) := by
  refine ⟨rfl, rfl, rfl, rfl, rfl, rfl, rfl, rfl, rfl, ?_, rfl, ?_⟩
  · intro c hcmem
    simp only [initGame, initialState, List.mem_cons, List.not_mem_nil, or_false] at hcmem
    rcases hcmem with h | h | h | h | h | h <;> (subst h; rfl)
  · intro b hb
    simp only [initGame, initialState, List.mem_cons, List.not_mem_nil, or_false] at hb
    rcases hb with h | h | h <;> (subst h; exact ⟨rfl, rfl⟩)

theorem c9_claim_witness :
    restart initialState = initGame ∧ restart w1 = initGame ∧
    initGame.score = 0 ∧ initGame.level = 1 :=
  ⟨(c9_restart_canonical initialState).1, (c9_restart_canonical w1).1,
   (c9_restart_canonical initialState).2.2.1,
   (c9_restart_canonical initialState).2.2.2.1⟩

/-- Claim C2: on any tick taken from PLAYING whose resulting score is below
3000, with not all (post-impact) batteries destroyed and
`floor(score / 500) + 1` exceeding the current level, the resulting state
has `level = floor(score / 500) + 1`, empty rocket and interceptor
collections (however many were present), and every battery's ammo —
including destroyed batteries' — reset to its `maxAmmo`
(App.tsx lines 308-314). -/
theorem c2_level_up_effects (ids : ℕ → String) (s : GameState)
    (h1 : s.status = GameStatus.PLAYING)
    (h2 : (update ids s).score < TARGET_SCORE)
    (h3 : ¬ (tickBatteries s).all (fun b => b.destroyed) = true)
    (h4 : ⌊(update ids s).score / 500⌋ + 1 > s.level) :
    (update ids s).level = ⌊(update ids s).score / 500⌋ + 1 ∧
    (update ids s).rockets = [] ∧ (update ids s).interceptors = [] ∧
    ∀ b ∈ (update ids s).batteries, b.ammo = b.maxAmmo := by
  have hs := update_score_of_playing ids s h1
  rw [hs] at h2 h4
  have h2' : ¬ tickScore ids s ≥ TARGET_SCORE := not_le.mpr h2
  rw [update_of_levelup ids s h1 h2' h3 h4]
  refine ⟨rfl, rfl, rfl, ?_⟩
  intro b hb
  simp only [List.mem_map] at hb
  obtain ⟨b0, _, rfl⟩ := hb
  rfl

theorem c2_claim_witness :
    (update ids0 sLvl).level = ⌊(update ids0 sLvl).score / 500⌋ + 1 ∧
    (update ids0 sLvl).rockets = [] ∧ (update ids0 sLvl).interceptors = [] := by
  have hsc : (update ids0 sLvl).score = 500 := by
    rw [update_score_of_playing ids0 sLvl rfl, tickScore_sLvl]
  have h2 : (update ids0 sLvl).score < TARGET_SCORE := by
    rw [hsc, TARGET_SCORE]
    norm_num
  have h3 : ¬ (tickBatteries sLvl).all (fun b => b.destroyed) = true := by
    rw [tickBatteries, rocketsPhase_sLvl]
    simp [batLvl]
  have h4 : ⌊(update ids0 sLvl).score / 500⌋ + 1 > sLvl.level := by
    rw [hsc, show (500:ℝ) / 500 = 1 by norm_num, Int.floor_one]
    show (1:ℤ) + 1 > 1
    norm_num
  have h := c2_level_up_effects ids0 sLvl rfl h2 h3 h4
  exact ⟨h.1, h.2.1, h.2.2.1⟩

/-- Claim C3 (amended): on every PLAYING tick the resulting score is the
previous score plus `50 * k`, where `k` is the number of rockets caught in
an explosion this tick; `destroyedCount` becomes the previous value plus
`k` on every tick EXCEPT level-up ticks — the level-up branch's
`{ ...prev, ... }` rebuild (App.tsx line 313) omits the updated counter, so
on a level-up tick `destroyedCount` keeps its pre-tick value. -/
theorem c3_scoring_amended (ids : ℕ → String) (s : GameState)
    (h1 : s.status = GameStatus.PLAYING) :
    (update ids s).score =
      s.score + 50 * (hitCount (liveExplosions ids s) (rocketsPhase s).1 : ℝ) ∧
    ((update ids s).level = s.level →
      (update ids s).destroyedCount =
        s.destroyedCount + hitCount (liveExplosions ids s) (rocketsPhase s).1) ∧
    ((update ids s).level ≠ s.level →
      (update ids s).destroyedCount = s.destroyedCount) := by
  have hcol := collide_score_dc (liveExplosions ids s) (rocketsPhase s).1
    s.score s.destroyedCount
  have hsc : tickScore ids s =
      s.score + 50 * (hitCount (liveExplosions ids s) (rocketsPhase s).1 : ℝ) := by
    rw [tickScore, collidePhase]
    exact hcol.1
  have hdc : tickDestroyedCount ids s =
      s.destroyedCount + hitCount (liveExplosions ids s) (rocketsPhase s).1 := by
    rw [tickDestroyedCount, collidePhase]
    exact hcol.2
  by_cases h2 : tickScore ids s ≥ TARGET_SCORE
  · rw [update_of_won ids s h1 h2]
    exact ⟨hsc, fun _ => hdc, fun hne => absurd rfl hne⟩
  · by_cases h3 : (tickBatteries s).all (fun b => b.destroyed) = true
    · rw [update_of_lost ids s h1 h2 h3]
      exact ⟨hsc, fun _ => hdc, fun hne => absurd rfl hne⟩
    · by_cases h4 : ⌊tickScore ids s / 500⌋ + 1 > s.level
      · rw [update_of_levelup ids s h1 h2 h3 h4]
        exact ⟨hsc, fun hlev => absurd hlev (ne_of_gt h4), fun _ => rfl⟩
      · rw [update_of_normal ids s h1 h2 h3 h4]
        exact ⟨hsc, fun _ => hdc, fun hne => absurd rfl hne⟩

theorem c3_claim_witness :
    (update ids0 initGame).score =
      initGame.score +
        50 * (hitCount (liveExplosions ids0 initGame) (rocketsPhase initGame).1 : ℝ) ∧
    ((update ids0 initGame).level = initGame.level →
      (update ids0 initGame).destroyedCount =
        initGame.destroyedCount +
          hitCount (liveExplosions ids0 initGame) (rocketsPhase initGame).1) ∧
    ((update ids0 initGame).level ≠ initGame.level →
      (update ids0 initGame).destroyedCount = initGame.destroyedCount) :=
  c3_scoring_amended ids0 initGame rfl

/-- Claim C3 as stated is false on the code: the tick from `sLvl` destroys
exactly one rocket (k = 1) and adds 50 to the score, but because the tick
levels up (450 → 500 points), the resulting `destroyedCount` is the
pre-tick 9, not 9 + 1. -/
theorem c3_counterexample :
    sLvl.status = GameStatus.PLAYING ∧
    hitCount (liveExplosions ids0 sLvl) (rocketsPhase sLvl).1 = 1 ∧
    (update ids0 sLvl).score = sLvl.score + 50 * 1 ∧
    (update ids0 sLvl).destroyedCount ≠ sLvl.destroyedCount + 1 := by
  refine ⟨rfl, ?_, ?_, ?_⟩
  · rw [liveExplosions_sLvl, rocketsPhase_sLvl]
    simp only [hitCount, if_pos hitTest_rMoved]
  · rw [update_sLvl]
    show (500 : ℝ) = sLvl.score + 50 * 1
    rw [show sLvl.score = 450 from rfl]
    norm_num
  · rw [update_sLvl]
    show sLvl.destroyedCount ≠ sLvl.destroyedCount + 1
    rw [show sLvl.destroyedCount = 9 from rfl]
    norm_num

/-- Claim C6 (amended): on every PLAYING tick on which no level-up occurs,
every explosion in the resulting state has radius > 0 and alpha > 0 (the
lifecycle pass filters dead ones out); on a level-up tick the resulting
explosions field is the lifecycle-updated but unfiltered array, which may
retain explosions with radius ≤ 0 or alpha ≤ 0. -/
theorem c6_explosions_amended (ids : ℕ → String) (s : GameState)
    (h1 : s.status = GameStatus.PLAYING)
    (h2 : (update ids s).level = s.level) :
    ∀ e ∈ (update ids s).explosions, 0 < e.radius ∧ 0 < e.alpha := by
  by_cases hw : tickScore ids s ≥ TARGET_SCORE
  · rw [update_of_won ids s h1 hw]
    intro e he
    have he' : e ∈ pruneExplosions (explosionsMutatedPhase ids s) := he
    exact (of_mem_pruneExplosions he').2
  · by_cases h3 : (tickBatteries s).all (fun b => b.destroyed) = true
    · rw [update_of_lost ids s h1 hw h3]
      intro e he
      have he' : e ∈ pruneExplosions (explosionsMutatedPhase ids s) := he
      exact (of_mem_pruneExplosions he').2
    · by_cases h4 : ⌊tickScore ids s / 500⌋ + 1 > s.level
      · rw [update_of_levelup ids s h1 hw h3 h4] at h2
        exact absurd h2 (ne_of_gt h4)
      · rw [update_of_normal ids s h1 hw h3 h4]
        intro e he
        have he' : e ∈ pruneExplosions (explosionsMutatedPhase ids s) := he
        exact (of_mem_pruneExplosions he').2

theorem c6_claim_witness : 0 < eLiveStepped.radius ∧ 0 < eLiveStepped.alpha := by
  have hsc : tickScore ids0 w6 = 0 := rfl
  have hw : ¬ tickScore ids0 w6 ≥ TARGET_SCORE := by
    rw [hsc, TARGET_SCORE]
    norm_num
  have h3 : ¬ (tickBatteries w6).all (fun b => b.destroyed) = true := by
    rw [show tickBatteries w6 = [batLvl] from rfl]
    simp [batLvl]
  have h4 : ¬ ⌊tickScore ids0 w6 / 500⌋ + 1 > w6.level := by
    rw [hsc, show (0:ℝ) / 500 = 0 by norm_num, Int.floor_zero]
    show ¬ (0:ℤ) + 1 > 1
    norm_num
  have heq := update_of_normal ids0 w6 rfl hw h3 h4
  have h2 : (update ids0 w6).level = w6.level := by rw [heq]
  have hmut : explosionsMutatedPhase ids0 w6 = [eLiveStepped] := by
    rw [explosionsMutatedPhase, show (interceptorsPhase ids0 w6).2 = [] from rfl,
        show w6.explosions = [eLive] from rfl]
    simp only [List.append_nil, List.map_cons, List.map_nil]
    rw [stepExplosion_eLive]
  have hpos : (0 : ℝ) < eLiveStepped.radius ∧ (0 : ℝ) < eLiveStepped.alpha := by
    constructor <;> norm_num [eLiveStepped]
  have hmem : eLiveStepped ∈ (update ids0 w6).explosions := by
    rw [heq]
    show eLiveStepped ∈ liveExplosions ids0 w6
    rw [liveExplosions, hmut]
    simp only [pruneExplosions, if_pos hpos]
    exact List.mem_singleton.mpr rfl
  exact c6_explosions_amended ids0 w6 rfl h2 eLiveStepped hmem

/-- Claim C6 as stated is false on the code: the tick from `sLvl` levels
up, and the dead explosion `eDyingStepped` (its lifecycle update drove its
radius to −0.25 this very tick) remains in the resulting state's explosion
collection. -/
theorem c6_counterexample :
    sLvl.status = GameStatus.PLAYING ∧
    eDyingStepped ∈ (update ids0 sLvl).explosions ∧ eDyingStepped.radius ≤ 0 := by
  refine ⟨rfl, ?_, by norm_num [eDyingStepped]⟩
  rw [update_sLvl]
  show eDyingStepped ∈ [eLiveStepped, eDyingStepped]
  simp

lemma map_markCity_eq_self (t : Point) :
    ∀ (cs : List City), (∀ c ∈ cs, ¬(c.pos.x = t.x ∧ c.pos.y = t.y)) →
      (cs.map fun c => if c.pos.x = t.x ∧ c.pos.y = t.y then
        { c with destroyed := true } else c) = cs := by
  intro cs
  induction cs with
  | nil => intro _; rfl
  | cons c cs ih =>
    intro h
    simp only [List.map_cons, if_neg (h c (List.mem_cons_self _ _))]
    rw [ih fun c' hc' => h c' (List.mem_cons_of_mem _ hc')]

lemma map_markBattery_eq_self (t : Point) :
    ∀ (bs : List Battery), (∀ b ∈ bs, ¬(b.pos.x = t.x ∧ b.pos.y = t.y)) →
      (bs.map fun b => if b.pos.x = t.x ∧ b.pos.y = t.y then
        { b with destroyed := true } else b) = bs := by
  intro bs
  induction bs with
  | nil => intro _; rfl
  | cons b bs ih =>
    intro h
    simp only [List.map_cons, if_neg (h b (List.mem_cons_self _ _))]
    rw [ih fun b' hb' => h b' (List.mem_cons_of_mem _ hb')]

lemma markFirstCity_eq_map (t : Point) :
    ∀ (cs : List City), cs.Pairwise (fun a b => a.pos ≠ b.pos) →
      markFirstCity t cs =
        cs.map fun c => if c.pos.x = t.x ∧ c.pos.y = t.y then
          { c with destroyed := true } else c := by
  intro cs
  induction cs with
  | nil => intro _; rfl
  | cons c cs ih =>
    intro hp
    rcases List.pairwise_cons.mp hp with ⟨hc, hcs⟩
    by_cases hm : c.pos.x = t.x ∧ c.pos.y = t.y
    · simp only [markFirstCity, List.map_cons, if_pos hm]
      have hnone : ∀ c' ∈ cs, ¬(c'.pos.x = t.x ∧ c'.pos.y = t.y) := by
        intro c' hc' hm'
        apply hc c' hc'
        ext
        · rw [hm.1, hm'.1]
        · rw [hm.2, hm'.2]
      rw [map_markCity_eq_self t cs hnone]
    · simp only [markFirstCity, List.map_cons, if_neg hm]
      rw [ih hcs]

lemma markFirstBattery_eq_map (t : Point) :
    ∀ (bs : List Battery), bs.Pairwise (fun a b => a.pos ≠ b.pos) →
      markFirstBattery t bs =
        bs.map fun b => if b.pos.x = t.x ∧ b.pos.y = t.y then
          { b with destroyed := true } else b := by
  intro bs
  induction bs with
  | nil => intro _; rfl
  | cons b bs ih =>
    intro hp
    rcases List.pairwise_cons.mp hp with ⟨hb, hbs⟩
    by_cases hm : b.pos.x = t.x ∧ b.pos.y = t.y
    · simp only [markFirstBattery, List.map_cons, if_pos hm]
      have hnone : ∀ b' ∈ bs, ¬(b'.pos.x = t.x ∧ b'.pos.y = t.y) := by
        intro b' hb' hm'
        apply hb b' hb'
        ext
        · rw [hm.1, hm'.1]
        · rw [hm.2, hm'.2]
      rw [map_markBattery_eq_self t bs hnone]
    · simp only [markFirstBattery, List.map_cons, if_neg hm]
      rw [ih hbs]

lemma dist_after_move (p t : Point) (v : ℝ) (hv : 0 < v) (hd : v ≤ dist p t) :
    dist ⟨p.x + (t.x - p.x) / dist p t * v, p.y + (t.y - p.y) / dist p t * v⟩ t
      = dist p t - v := by
  have hd0 : 0 < dist p t := lt_of_lt_of_le hv hd
  have hne : dist p t ≠ 0 := ne_of_gt hd0
  have hD : dist p t * dist p t =
      (t.x - p.x) * (t.x - p.x) + (t.y - p.y) * (t.y - p.y) := by
    rw [dist]
    exact Real.mul_self_sqrt
      (add_nonneg (mul_self_nonneg _) (mul_self_nonneg _))
  have key : (t.x - (p.x + (t.x - p.x) / dist p t * v)) *
        (t.x - (p.x + (t.x - p.x) / dist p t * v)) +
      (t.y - (p.y + (t.y - p.y) / dist p t * v)) *
        (t.y - (p.y + (t.y - p.y) / dist p t * v)) =
      (dist p t - v) * (dist p t - v) := by
    field_simp
    nlinarith [hD]
  show Real.sqrt _ = dist p t - v
  rw [key]
  exact Real.sqrt_mul_self (by linarith)

/-- Claim C5: a rocket strictly closer to its fixed target than its speed
resolves impact this tick — the city at the target coordinate is marked
destroyed, the battery at the target coordinate is marked destroyed, and
the rocket is removed — while a rocket at distance ≥ speed instead advances
exactly `speed` along the unit direction toward the target (its remaining
distance drops by exactly `speed`).  The source marks via `find`, which
hits at most one entity when positions are pairwise distinct, so under that
hypothesis every matching city/battery ends up destroyed. -/
theorem c5_arrival_resolution (cs : List City) (bs : List Battery) (r : Rocket)
    (hv : 0 < r.speed)
    (hcs : cs.Pairwise fun a b => a.pos ≠ b.pos)
    (hbs : bs.Pairwise fun a b => a.pos ≠ b.pos) :
    (dist r.pos r.target < r.speed →
      stepRocket cs bs r =
        (none,
         cs.map fun c => if c.pos.x = r.target.x ∧ c.pos.y = r.target.y then
           { c with destroyed := true } else c,
         bs.map fun b => if b.pos.x = r.target.x ∧ b.pos.y = r.target.y then
           { b with destroyed := true } else b)) ∧
    (r.speed ≤ dist r.pos r.target →
      stepRocket cs bs r =
        (some { r with pos :=
            ⟨r.pos.x + (r.target.x - r.pos.x) / dist r.pos r.target * r.speed,
             r.pos.y + (r.target.y - r.pos.y) / dist r.pos r.target * r.speed⟩ },
         cs, bs) ∧
      dist ⟨r.pos.x + (r.target.x - r.pos.x) / dist r.pos r.target * r.speed,
            r.pos.y + (r.target.y - r.pos.y) / dist r.pos r.target * r.speed⟩
          r.target
        = dist r.pos r.target - r.speed) := by
  constructor
  · intro h
    rw [stepRocket, if_pos h, markFirstCity_eq_map _ _ hcs,
        markFirstBattery_eq_map _ _ hbs]
  · intro h
    refine ⟨?_, dist_after_move r.pos r.target r.speed hv h⟩
    rw [stepRocket, if_neg (not_lt.mpr h)]

theorem c5_claim_witness :
    stepRocket [c50] [b50] r50 =
      (none, [{ c50 with destroyed := true }], [b50]) := by
  have hd : dist r50.pos r50.target < r50.speed := by
    show Real.sqrt ((3 - 0) * (3 - 0) + (4 - 0) * (4 - 0)) < 6
    rw [show ((3:ℝ) - 0) * (3 - 0) + (4 - 0) * (4 - 0) = 5 * 5 by norm_num,
        Real.sqrt_mul_self (by norm_num : (0:ℝ) ≤ 5)]
    norm_num
  have h := (c5_arrival_resolution [c50] [b50] r50 (by norm_num [r50])
    (List.pairwise_singleton _ _) (List.pairwise_singleton _ _)).1 hd
  rw [h]
  norm_num [c50, b50, r50]

lemma nearestBattery_ne_none (x : ℝ) :
    ∀ (bs : List Battery) (i : ℕ) (acc : Option (ℕ × ℝ)),
      ((∃ b ∈ bs, b.destroyed = false) ∨ acc ≠ none) →
      nearestBattery x bs i acc ≠ none := by
  intro bs
  induction bs with
  | nil =>
    intro i acc h
    rcases h with ⟨b, hb, _⟩ | h
    · simp at hb
    · exact h
  | cons b bs ih =>
    intro i acc h
    by_cases hd : b.destroyed = true
    · simp only [nearestBattery, if_pos hd]
      apply ih
      rcases h with ⟨b', hb', hbd⟩ | h
      · rcases List.mem_cons.mp hb' with h1 | h1
        · subst h1
          rw [hd] at hbd
          cases hbd
        · exact Or.inl ⟨b', h1, hbd⟩
      · exact Or.inr h
    · simp only [nearestBattery, if_neg hd]
      cases acc with
      | none =>
        apply ih
        exact Or.inr (by simp)
      | some p =>
        obtain ⟨bi, m⟩ := p
        dsimp only
        by_cases hlt : |b.pos.x - x| < m
        · rw [if_pos hlt]
          exact ih _ _ (Or.inr (by simp))
        · rw [if_neg hlt]
          exact ih _ _ (Or.inr (by simp))

lemma nearestBattery_spec (x : ℝ) :
    ∀ (bs : List Battery) (i : ℕ) (acc : Option (ℕ × ℝ)) (k : ℕ) (m : ℝ),
      nearestBattery x bs i acc = some (k, m) →
      (acc = some (k, m) ∨
        ∃ j, ∃ (hj : j < bs.length), k = i + j ∧
          m = |(bs.get ⟨j, hj⟩).pos.x - x| ∧ (bs.get ⟨j, hj⟩).destroyed = false) ∧
      (∀ p, acc = some p → m ≤ p.2) ∧
      (∀ b ∈ bs, b.destroyed = false → m ≤ |b.pos.x - x|) := by
  intro bs
  induction bs with
  | nil =>
    intro i acc k m h
    have hacc : acc = some (k, m) := h
    refine ⟨Or.inl hacc, ?_, ?_⟩
    · intro p hp
      rw [hacc] at hp
      injection hp with hp'
      rw [← hp']
    · intro b hb
      simp at hb
  | cons b bs ih =>
    intro i acc k m h
    by_cases hd : b.destroyed = true
    · simp only [nearestBattery, if_pos hd] at h
      obtain ⟨h1, h2, h3⟩ := ih (i + 1) acc k m h
      refine ⟨?_, h2, ?_⟩
      · rcases h1 with h1 | ⟨j, hj, hk, hm, hnd⟩
        · exact Or.inl h1
        · exact Or.inr ⟨j + 1, by simpa using Nat.succ_lt_succ hj, by omega, hm, hnd⟩
      · intro b' hb' hnd'
        rcases List.mem_cons.mp hb' with rfl | hmem
        · rw [hd] at hnd'
          cases hnd'
        · exact h3 b' hmem hnd'
    · simp only [nearestBattery, if_neg hd] at h
      cases acc with
      | none =>
        obtain ⟨h1, h2, h3⟩ := ih (i + 1) (some (i, |b.pos.x - x|)) k m h
        refine ⟨?_, ?_, ?_⟩
        · rcases h1 with h1 | ⟨j, hj, hk, hm, hnd⟩
          · injection h1 with h1'
            injection h1' with hka hma
            subst hka
            subst hma
            refine Or.inr ⟨0, by simp, by omega, rfl, ?_⟩
            simpa using hd
          · exact Or.inr ⟨j + 1, by simpa using Nat.succ_lt_succ hj, by omega, hm, hnd⟩
        · intro p hp
          cases hp
        · intro b' hb' hnd'
          rcases List.mem_cons.mp hb' with rfl | hmem
          · exact h2 (i, |b'.pos.x - x|) rfl
          · exact h3 b' hmem hnd'
      | some p =>
        obtain ⟨bi, m0⟩ := p
        dsimp only at h
        by_cases hlt : |b.pos.x - x| < m0
        · rw [if_pos hlt] at h
          obtain ⟨h1, h2, h3⟩ := ih (i + 1) (some (i, |b.pos.x - x|)) k m h
          refine ⟨?_, ?_, ?_⟩
          · rcases h1 with h1 | ⟨j, hj, hk, hm, hnd⟩
            · injection h1 with h1'
              injection h1' with hka hma
              subst hka
              subst hma
              refine Or.inr ⟨0, by simp, by omega, rfl, ?_⟩
              simpa using hd
            · exact Or.inr ⟨j + 1, by simpa using Nat.succ_lt_succ hj, by omega, hm, hnd⟩
          · intro p' hp'
            injection hp' with hp''
            rw [← hp'']
            have hm1 : m ≤ |b.pos.x - x| := h2 (i, |b.pos.x - x|) rfl
            exact le_of_lt (lt_of_le_of_lt hm1 hlt)
          · intro b' hb' hnd'
            rcases List.mem_cons.mp hb' with rfl | hmem
            · exact h2 (i, |b'.pos.x - x|) rfl
            · exact h3 b' hmem hnd'
        · rw [if_neg hlt] at h
          obtain ⟨h1, h2, h3⟩ := ih (i + 1) (some (bi, m0)) k m h
          refine ⟨?_, ?_, ?_⟩
          · rcases h1 with h1 | ⟨j, hj, hk, hm, hnd⟩
            · exact Or.inl h1
            · exact Or.inr ⟨j + 1, by simpa using Nat.succ_lt_succ hj, by omega, hm, hnd⟩
          · intro p' hp'
            injection hp' with hp''
            rw [← hp'']
            exact h2 (bi, m0) rfl
          · intro b' hb' hnd'
            rcases List.mem_cons.mp hb' with rfl | hmem
            · exact le_trans (h2 (bi, m0) rfl) (not_lt.mp hlt)
            · exact h3 b' hmem hnd'

/-- Claim C8: a tap during PLAYING with at least one live battery changes
the state only by appending exactly one interceptor, whose origin is the
position of a live battery minimizing the horizontal distance
`|battery.x − tap.x|`, whose target is the tap point and whose speed is 6;
every other field — in particular every battery's ammo — is untouched
(App.tsx lines 191-211 never write to `batteries`). -/
theorem c8_tap_fires_interceptor (newId : String) (x y : ℝ) (s : GameState)
    (h1 : s.status = GameStatus.PLAYING)
    (h2 : ∃ b ∈ s.batteries, b.destroyed = false) :
    ∃ k, ∃ (hk : k < s.batteries.length),
      (s.batteries.get ⟨k, hk⟩).destroyed = false ∧
      (∀ b ∈ s.batteries, b.destroyed = false →
        |(s.batteries.get ⟨k, hk⟩).pos.x - x| ≤ |b.pos.x - x|) ∧
      handleCanvasClick newId x y s =
        { s with interceptors := s.interceptors ++
            [{ id := newId, pos := (s.batteries.get ⟨k, hk⟩).pos, target := ⟨x, y⟩,
               origin := (s.batteries.get ⟨k, hk⟩).pos,
               speed := INTERCEPTOR_SPEED, batteryIndex := k }] } := by
  have hne := nearestBattery_ne_none x s.batteries 0 none (Or.inl h2)
  obtain ⟨⟨k, m⟩, hsome⟩ : ∃ p, nearestBattery x s.batteries 0 none = some p := by
    cases hh : nearestBattery x s.batteries 0 none with
    | none => exact absurd hh hne
    | some p => exact ⟨p, rfl⟩
  obtain ⟨h1', hmono, hmin⟩ := nearestBattery_spec x s.batteries 0 none k m hsome
  rcases h1' with hbad | ⟨j, hj, hk0, hm, hnd⟩
  · cases hbad
  · have hkj : k = j := by omega
    subst hkj
    refine ⟨k, hj, hnd, ?_, ?_⟩
    · intro b hb hbnd
      rw [← hm]
      exact hmin b hb hbnd
    · unfold handleCanvasClick
      rw [if_neg (by simp [h1]), hsome]
      dsimp only
      rw [List.get?_eq_get hj]

theorem c8_claim_witness :
    (handleCanvasClick "i" 60 100 initGame).interceptors.length =
      initGame.interceptors.length + 1 := by
  have h2 : ∃ b ∈ initGame.batteries, b.destroyed = false :=
    ⟨{ id := "b1", pos := ⟨50, 550⟩, ammo := 20, maxAmmo := 20, destroyed := false },
     by simp [initGame, initialState], rfl⟩
  obtain ⟨k, hk, _, _, heq⟩ := c8_tap_fires_interceptor "i" 60 100 initGame rfl h2
  rw [heq]
  simp

/-- Claim C10: starting from the initial state, any sequence of simulation
ticks, taps, rocket spawns and restarts keeps `status` within
START/PLAYING/WON/LOST; the fifth value `LEVEL_COMPLETE` admitted by the
`GameStatus` type is never assigned by any operation. -/
theorem c10_no_level_complete (s : GameState) (h : Reachable s) :
    s.status = GameStatus.START ∨ s.status = GameStatus.PLAYING ∨
    s.status = GameStatus.WON ∨ s.status = GameStatus.LOST := by
  induction h with
  | init => exact Or.inl rfl
  | tick ids hr ih =>
    rcases update_status_cases ids _ with h1 | h1 | h1
    · rw [h1]; exact ih
    · rw [h1]; exact Or.inr (Or.inr (Or.inl rfl))
    · rw [h1]; exact Or.inr (Or.inr (Or.inr rfl))
  | click newId x y hr ih =>
    rw [handleCanvasClick_status]
    exact ih
  | spawn choice startX newId hr ih =>
    rw [spawnRocket_status]
    exact ih
  | restartGame hr ih => exact Or.inr (Or.inl rfl)

theorem c10_claim_witness :
    initialState.status = GameStatus.START ∨
    initialState.status = GameStatus.PLAYING ∨
    initialState.status = GameStatus.WON ∨
    initialState.status = GameStatus.LOST :=
  c10_no_level_complete initialState Reachable.init

end

end NovaDefense
